import Mathlib

/-!
Verification of the todopus task manager core: the entity model
(`projects`, `project_shares`, `sections`, `tasks` from the consolidated
Supabase migration), the row-level-security visibility policies, and the
task mutations of `useTasks.ts` (`useTask`, `useUpdateTask`,
`useCompleteTask`, `useUncompleteTask`, `useDeleteTask`, `useTasks` tree
assembly), together with the foreign-key delete actions
(`parent_id ON DELETE CASCADE`, `project_id ON DELETE SET NULL`,
`blocked_by ON DELETE SET NULL`, `parent_task_id ON DELETE CASCADE`).
-/

namespace Todopus

/-- `share_permission` enum: `('view', 'edit', 'admin')`. -/
inductive SharePermission where
  | view
  | edit
  | admin
deriving DecidableEq, Repr

/-- `task_status` enum: `('open', 'done', 'cancelled')`. -/
inductive TaskStatus where
  | «open»
  | done
  | cancelled
deriving DecidableEq, Repr

/-- `projects` row (columns used by the policies and cascades). -/
structure Project where
  id : Nat
  owner_id : Nat
  parent_id : Option Nat
  name : String
  is_archived : Bool
deriving DecidableEq, Repr

/-- `project_shares` row: `UNIQUE(project_id, shared_with_user_id)`. -/
structure Share where
  id : Nat
  project_id : Nat
  shared_with_user_id : Nat
  permission : SharePermission
deriving DecidableEq, Repr

/-- `sections` row. -/
structure Section where
  id : Nat
  project_id : Nat
  name : String
  sort_order : Int
deriving DecidableEq, Repr

/-- `tasks` row, fields as in `src/types/index.ts` / the migration.
Identifiers are `Nat`; dates and timestamps are kept as opaque strings
(ISO format in the source), since no claim needs date arithmetic. -/
structure Task where
  id : Nat
  owner_id : Nat
  project_id : Option Nat
  section_id : Option Nat
  parent_task_id : Option Nat
  title : String
  description : Option String
  status : TaskStatus
  priority : Nat
  due_date : Option String
  due_time : Option String
  deadline : Option String
  recurrence_rule : Option String
  recurrence_base_date : Option String
  blocked_by : Option Nat
  sort_order : Int
  completed_at : Option String
deriving DecidableEq, Repr

/-- The database: one list per table. -/
structure DB where
  projects : List Project
  shares : List Share
  sections : List Section
  tasks : List Task
deriving DecidableEq, Repr

/-- `EXISTS (SELECT 1 FROM project_shares WHERE project_shares.project_id = pid
AND project_shares.shared_with_user_id = uid)`. -/
def shareExists (shares : List Share) (pid uid : Nat) : Bool :=
  shares.any (fun s => s.project_id == pid && s.shared_with_user_id == uid)

/-- Same with `AND permission IN ('edit', 'admin')`. -/
def shareExistsEdit (shares : List Share) (pid uid : Nat) : Bool :=
  shares.any (fun s => s.project_id == pid && s.shared_with_user_id == uid
    && (s.permission == .edit || s.permission == .admin))

/-- Tasks SELECT policy "Users can view own inbox tasks":
`owner_id = auth.uid() AND project_id IS NULL`. -/
def taskPolicyViewInbox (uid : Nat) (t : Task) : Bool :=
  t.owner_id == uid && t.project_id.isNone

/-- Tasks SELECT policy "Users can view tasks in accessible projects":
`project_id IS NOT NULL AND EXISTS (SELECT 1 FROM projects WHERE
projects.id = tasks.project_id AND (projects.owner_id = auth.uid() OR
EXISTS (... share for auth.uid() ...)))`. -/
def taskPolicyViewAccessible (projects : List Project) (shares : List Share)
    (uid : Nat) (t : Task) : Bool :=
  match t.project_id with
  | none => false
  | some pid =>
      projects.any (fun p => p.id == pid
        && (p.owner_id == uid || shareExists shares p.id uid))

/-- A task row is visible to `uid` iff one of the two permissive SELECT
policies on `tasks` accepts it. -/
def canReadTask (projects : List Project) (shares : List Share)
    (uid : Nat) (t : Task) : Bool :=
  taskPolicyViewInbox uid t || taskPolicyViewAccessible projects shares uid t

/-- Tasks policy "Users can update own inbox tasks". -/
def taskPolicyUpdateInbox (uid : Nat) (t : Task) : Bool :=
  t.owner_id == uid && t.project_id.isNone

/-- Tasks policy "Users can modify own tasks in projects" (FOR ALL). -/
def taskPolicyModifyOwn (projects : List Project) (shares : List Share)
    (uid : Nat) (t : Task) : Bool :=
  match t.project_id with
  | none => false
  | some pid =>
      t.owner_id == uid
        && projects.any (fun p => p.id == pid
          && (p.owner_id == uid || shareExists shares p.id uid))

/-- Tasks policy "Users can modify tasks in editable shared projects"
(FOR UPDATE). -/
def taskPolicyModifyEditable (projects : List Project) (shares : List Share)
    (uid : Nat) (t : Task) : Bool :=
  match t.project_id with
  | none => false
  | some pid =>
      projects.any (fun p => p.id == pid && shareExistsEdit shares p.id uid)

/-- A task row is writable (UPDATE) by `uid` iff one of the permissive
policies applicable to UPDATE accepts it. -/
def canWriteTask (projects : List Project) (shares : List Share)
    (uid : Nat) (t : Task) : Bool :=
  taskPolicyUpdateInbox uid t
    || taskPolicyModifyOwn projects shares uid t
    || taskPolicyModifyEditable projects shares uid t

/-- Sections SELECT policy "Users can view sections of accessible projects". -/
def canReadSection (projects : List Project) (shares : List Share)
    (uid : Nat) (sec : Section) : Bool :=
  projects.any (fun p => p.id == sec.project_id
    && (p.owner_id == uid || shareExists shares p.id uid))

/-- Sections policy "Users can modify sections of editable projects" (FOR ALL). -/
def canWriteSection (projects : List Project) (shares : List Share)
    (uid : Nat) (sec : Section) : Bool :=
  projects.any (fun p => p.id == sec.project_id
    && (p.owner_id == uid || shareExistsEdit shares p.id uid))

/-- Spec-level Permission Resolver (§4.1), for comparison with the
policies: owner resolves to `admin`, otherwise the unique share row's
permission, otherwise `none` (modelled as `Option.none`). -/
def resolve (shares : List Share) (uid : Nat) (p : Project) :
    Option SharePermission :=
  if p.owner_id == uid then some .admin
  else (shares.find? (fun s =>
    s.project_id == p.id && s.shared_with_user_id == uid)).map (·.permission)

/-- `UpdateTaskInput` from `src/types/index.ts`: every field optional;
an absent field (outer `none`) is left untouched by the update. -/
structure UpdateTaskInput where
  title : Option String
  project_id : Option (Option Nat)
  section_id : Option (Option Nat)
  description : Option (Option String)
  status : Option TaskStatus
  priority : Option Nat
  due_date : Option (Option String)
  due_time : Option (Option String)
  deadline : Option (Option String)
  blocked_by : Option (Option Nat)
  sort_order : Option Int
  completed_at : Option (Option String)
deriving DecidableEq, Repr

/-- The empty patch: no field present. -/
def emptyUpdate : UpdateTaskInput :=
  { title := none, project_id := none, section_id := none,
    description := none, status := none, priority := none,
    due_date := none, due_time := none, deadline := none,
    blocked_by := none, sort_order := none, completed_at := none }

/-- Apply an `UpdateTaskInput` patch to a row, column by column. -/
def applyUpdate (t : Task) (u : UpdateTaskInput) : Task :=
  { t with
    title := u.title.getD t.title,
    project_id := u.project_id.getD t.project_id,
    section_id := u.section_id.getD t.section_id,
    description := u.description.getD t.description,
    status := u.status.getD t.status,
    priority := u.priority.getD t.priority,
    due_date := u.due_date.getD t.due_date,
    due_time := u.due_time.getD t.due_time,
    deadline := u.deadline.getD t.deadline,
    blocked_by := u.blocked_by.getD t.blocked_by,
    sort_order := u.sort_order.getD t.sort_order,
    completed_at := u.completed_at.getD t.completed_at }

/-- `useUpdateTask`: `update(input).eq('id', id)` — patch the matching
rows, no validation, no predecessor-chain walk, no error besides the
database's own. -/
def updateTask (db : DB) (i : Nat) (input : UpdateTaskInput) : DB :=
  { db with
    tasks := db.tasks.map fun t =>
      if t.id == i then applyUpdate t input else t }

/-- `useCompleteTask`: `update({ status: 'done', completed_at: now })
.eq('id', id)` — unconditional, with no recurrence expansion and no check
of the task's current status. -/
def completeTask (db : DB) (i : Nat) (now : String) : DB :=
  { db with
    tasks := db.tasks.map fun t =>
      if t.id == i
      then { t with status := .done, completed_at := some now } else t }

/-- `useUncompleteTask`: `update({ status: 'open', completed_at: null })
.eq('id', id)`. -/
def uncompleteTask (db : DB) (i : Nat) : DB :=
  { db with
    tasks := db.tasks.map fun t =>
      if t.id == i
      then { t with status := .«open», completed_at := none } else t }

/-- The §3 invariant: completion timestamp is set exactly when the
status is `done`. -/
def statusTimestampConsistent (t : Task) : Prop :=
  t.status = .done ↔ t.completed_at ≠ none

instance (t : Task) : Decidable (statusTimestampConsistent t) := by
  unfold statusTimestampConsistent
  infer_instance

/-- The parent pointer of a project id (`projects.parent_id`). -/
def parentOf (projects : List Project) (q : Nat) : Option Nat :=
  match projects.find? (fun p => p.id == q) with
  | some p => p.parent_id
  | none => none

/-- Fuel-bounded ancestor walk: project `q` is in the delete cascade of
`target` iff following `parent_id` pointers from `q` reaches `target`
(`projects.parent_id ... ON DELETE CASCADE`, applied transitively). -/
def inProjectCascade (projects : List Project) : Nat → Nat → Nat → Bool
  | 0, q, target => q == target
  | fuel + 1, q, target =>
      q == target ||
        (match parentOf projects q with
         | some par => inProjectCascade projects fuel par target
         | none => false)

/-- Project `q` is deleted when project `target` is deleted. -/
def projectDead (db : DB) (target q : Nat) : Bool :=
  inProjectCascade db.projects db.projects.length q target

/-- Section `sid` is deleted when project `target` is deleted
(`sections.project_id ... ON DELETE CASCADE`). -/
def sectionDead (db : DB) (target sid : Nat) : Bool :=
  db.sections.any (fun s => s.id == sid && projectDead db target s.project_id)

/-- `tasks.project_id ... ON DELETE SET NULL` and
`tasks.section_id ... ON DELETE SET NULL`: a task row survives a project
deletion, with dangling references cleared. -/
def clearTaskProjectRefs (db : DB) (target : Nat) (t : Task) : Task :=
  { t with
    project_id :=
      match t.project_id with
      | some q => if projectDead db target q then none else some q
      | none => none,
    section_id :=
      match t.section_id with
      | some sid => if sectionDead db target sid then none else some sid
      | none => none }

/-- Deleting a project: the cascade set of projects disappears, with its
sections and shares; tasks keep their rows, with references nulled. -/
def deleteProject (db : DB) (target : Nat) : DB :=
  { projects := db.projects.filter fun p => !projectDead db target p.id,
    shares := db.shares.filter fun s => !projectDead db target s.project_id,
    sections := db.sections.filter fun s => !projectDead db target s.project_id,
    tasks := db.tasks.map (clearTaskProjectRefs db target) }

/-- The parent pointer of a task id (`tasks.parent_task_id`). -/
def taskParentOf (tasks : List Task) (q : Nat) : Option Nat :=
  match tasks.find? (fun t => t.id == q) with
  | some t => t.parent_task_id
  | none => none

/-- Fuel-bounded ancestor walk for tasks: `q` is in the delete cascade of
task `target` (`tasks.parent_task_id ... ON DELETE CASCADE`). -/
def inTaskCascade (tasks : List Task) : Nat → Nat → Nat → Bool
  | 0, q, target => q == target
  | fuel + 1, q, target =>
      q == target ||
        (match taskParentOf tasks q with
         | some par => inTaskCascade tasks fuel par target
         | none => false)

/-- Task `q` is deleted when task `target` is deleted. -/
def taskDead (db : DB) (target q : Nat) : Bool :=
  inTaskCascade db.tasks db.tasks.length q target

/-- `tasks.blocked_by ... ON DELETE SET NULL`: clear a predecessor
reference that points at a deleted task. -/
def clearDeadBlockedBy (db : DB) (target : Nat) (t : Task) : Task :=
  { t with
    blocked_by :=
      match t.blocked_by with
      | some b => if taskDead db target b then none else some b
      | none => none }

/-- `useDeleteTask`: deleting a task removes it and (by FK cascade) its
subtask subtree, and nulls `blocked_by` references to the removed rows. -/
def deleteTask (db : DB) (target : Nat) : DB :=
  { db with
    tasks := (db.tasks.filter fun t => !taskDead db target t.id).map
      (clearDeadBlockedBy db target) }

/-- The shape of the value assembled by `useTasks`: `topLevelTasks` plus
the parent/child attachments performed on the task map (an edge
`(parent id, child id)` for every subtask attached to a fetched parent). -/
structure TreeBuild where
  topLevel : List Task
  edges : List (Nat × Nat)
deriving DecidableEq, Repr

/-- One iteration of the `useTasks` assembly loop: a task with a parent
in the fetched set is attached to it; a task with no parent is a
top-level task; a task whose parent id is absent is dropped. -/
def buildStep (ts : List Task) (acc : TreeBuild) (task : Task) : TreeBuild :=
  match task.parent_task_id with
  | some pid =>
      if ts.any (fun q => q.id == pid)
      then { acc with edges := acc.edges ++ [(pid, task.id)] }
      else acc
  | none => { acc with topLevel := acc.topLevel ++ [task] }

/-- The `useTasks` tree assembly over the fetched tasks. -/
def buildTaskTree (ts : List Task) : TreeBuild :=
  ts.foldl (buildStep ts) { topLevel := [], edges := [] }

/-- PostgREST `.single()`: exactly one row yields the row, zero or
several rows yield error `PGRST116`. -/
def singleRow (rows : List Task) : Except String Task :=
  match rows with
  | [t] => Except.ok t
  | _ => Except.error "PGRST116"

/-- `useTask`: `select * from tasks where id = i` with RLS applied, then
`.single()`. Rows the SELECT policies hide are filtered out before the
id match, exactly as row-level security does. -/
def readTask (db : DB) (uid : Nat) (i : Nat) : Except String Task :=
  singleRow ((db.tasks.filter
    (fun t => canReadTask db.projects db.shares uid t)).filter
      (fun t => t.id == i))

/-- A private project task of user 1: user 2's read of it is literally
the read of a nonexistent id. -/
def projC2 : Project :=
  { id := 1, owner_id := 1, parent_id := none,
    name := "private", is_archived := false }

/-- The hidden task of `dbC2`. -/
def taskC2 : Task :=
  { id := 10, owner_id := 1, project_id := some 1,
    section_id := none, parent_task_id := none, title := "secret",
    description := none, status := .«open», priority := 0,
    due_date := none, due_time := none, deadline := none,
    recurrence_rule := none, recurrence_base_date := none,
    blocked_by := none, sort_order := 0, completed_at := none }

/-- Concrete database for the C2 witness. -/
def dbC2 : DB :=
  { projects := [projC2], shares := [], sections := [], tasks := [taskC2] }

/-- Parent project for the C5 witness. -/
def projC5P : Project :=
  { id := 1, owner_id := 1, parent_id := none,
    name := "parent", is_archived := false }

/-- Child project for the C5 witness. -/
def projC5C : Project :=
  { id := 2, owner_id := 1, parent_id := some 1,
    name := "child", is_archived := false }

/-- A task in the child project for the C5 witness. -/
def taskC5 : Task :=
  { taskC2 with id := 11, project_id := some 2, title := "child task" }

/-- A section in the child project for the C5 witness. -/
def secC5 : Section :=
  { id := 21, project_id := 2, name := "sec", sort_order := 0 }

/-- The edit share on the parent project granted to user 3. -/
def shareC5 : Share :=
  { id := 31, project_id := 1, shared_with_user_id := 3, permission := .edit }

/-- Database for the C5 witness. -/
def dbC5 : DB :=
  { projects := [projC5P, projC5C], shares := [], sections := [secC5],
    tasks := [taskC5] }

/-- A weekly-recurring task (rule `FREQ=WEEKLY;BYDAY=MO,TH`) anchored at
Monday 2025-01-06. -/
def taskC3 : Task :=
  { taskC2 with
    id := 1,
    project_id := none,
    title := "weekly",
    recurrence_rule := some "FREQ=WEEKLY;BYDAY=MO,TH",
    recurrence_base_date := some "2025-01-06",
    due_date := some "2025-01-06" }

/-- Database holding only the recurring task. -/
def dbC3 : DB :=
  { projects := [], shares := [], sections := [], tasks := [taskC3] }

/-- Task A for the C4 cycle input. -/
def taskC4A : Task :=
  { taskC2 with id := 1, project_id := none, title := "A" }

/-- Task B, already blocked by A. -/
def taskC4B : Task :=
  { taskC2 with
    id := 2,
    project_id := none,
    title := "B",
    blocked_by := some 1 }

/-- Database with B blocked by A. -/
def dbC4 : DB :=
  { projects := [], shares := [], sections := [], tasks := [taskC4A, taskC4B] }

/-- The patch setting A's predecessor to B. -/
def updC4 : UpdateTaskInput := { emptyUpdate with blocked_by := some (some 2) }

/-- A cancelled task. -/
def taskC8 : Task :=
  { taskC2 with
    id := 1,
    project_id := none,
    title := "cancelled",
    status := .cancelled }

/-- Database holding only the cancelled task. -/
def dbC8 : DB :=
  { projects := [], shares := [], sections := [], tasks := [taskC8] }

/-- An open task with no completion timestamp. -/
def taskC9 : Task :=
  { taskC2 with id := 1, project_id := none, title := "plain" }

/-- Database for the C9 counterexample and witness. -/
def dbC9 : DB :=
  { projects := [], shares := [], sections := [], tasks := [taskC9] }

/-- The patch setting only `status` to `done`. -/
def updC9 : UpdateTaskInput := { emptyUpdate with status := some .done }

/-- Parent project for the C6 witness. -/
def projC6P : Project :=
  { id := 1, owner_id := 1, parent_id := none,
    name := "to delete", is_archived := false }

/-- Subproject of the C6 parent. -/
def projC6C : Project :=
  { id := 2, owner_id := 1, parent_id := some 1,
    name := "sub", is_archived := false }

/-- A section inside the subproject. -/
def secC6 : Section :=
  { id := 21, project_id := 2, name := "sec", sort_order := 0 }

/-- A task of the subproject, due to move to the Inbox. -/
def taskC6 : Task :=
  { taskC2 with
    id := 7,
    project_id := some 2,
    section_id := some 21,
    title := "survivor" }

/-- Database for the C6 witness. -/
def dbC6 : DB :=
  { projects := [projC6P, projC6C], shares := [], sections := [secC6],
    tasks := [taskC6] }

/-- Predecessor task for the C7 counterexample. -/
def taskC7X : Task :=
  { taskC2 with id := 1, project_id := none, title := "X" }

/-- A task both blocked by X and a subtask of X. -/
def taskC7Y : Task :=
  { taskC2 with
    id := 2,
    project_id := none,
    title := "Y",
    parent_task_id := some 1,
    blocked_by := some 1 }

/-- Database for the C7 counterexample. -/
def dbC7 : DB :=
  { projects := [], shares := [], sections := [], tasks := [taskC7X, taskC7Y] }

/-- Blocked task outside the subtree, for the C7 witness. -/
def taskC7Z : Task :=
  { taskC2 with
    id := 3,
    project_id := none,
    title := "Z",
    blocked_by := some 1 }

/-- Database for the C7 witness. -/
def dbC7W : DB :=
  { projects := [], shares := [], sections := [], tasks := [taskC7X, taskC7Z] }

/-- An orphan subtask: its parent id 5 is not among the fetched tasks. -/
def taskC10 : Task :=
  { taskC2 with
    id := 4,
    project_id := none,
    title := "orphan",
    parent_task_id := some 5 }

/-- A normal top-level task fetched alongside the orphan. -/
def taskC10Top : Task :=
  { taskC2 with id := 6, project_id := none, title := "top" }

/-- `shareExists` holds iff a share row for the pair is present. -/
theorem shareExists_iff (shares : List Share) (pid uid : Nat) :
    shareExists shares pid uid = true ↔
      ∃ s ∈ shares, s.project_id = pid ∧ s.shared_with_user_id = uid := by
  simp [shareExists, List.any_eq_true]

/-- `resolve` is non-`none` iff the user owns the project or holds a share. -/
theorem resolve_ne_none_iff (shares : List Share) (uid : Nat) (p : Project) :
    resolve shares uid p ≠ none ↔
      p.owner_id = uid ∨ shareExists shares p.id uid = true := by
  unfold resolve
  by_cases h : p.owner_id = uid
  · simp [h]
  · simp only [beq_iff_eq, h, if_false, shareExists_iff]
    constructor
    · intro hmap
      rcases Option.ne_none_iff_exists.mp hmap with ⟨perm, hperm⟩
      rcases Option.map_eq_some.mp hperm.symm with ⟨s, hfind, _⟩
      have hmem := List.mem_of_find?_eq_some hfind
      have hpred := List.find?_some hfind
      simp only [Bool.and_eq_true, beq_iff_eq] at hpred
      exact Or.inr ⟨s, hmem, hpred.1, hpred.2⟩
    · rintro (hc | ⟨s, hmem, hproj, huser⟩)
      · exact hc.elim
      · have : (shares.find? (fun s =>
            s.project_id == p.id && s.shared_with_user_id == uid)).isSome := by
          rw [List.find?_isSome]
          exact ⟨s, hmem, by simp [hproj, huser]⟩
        rcases Option.isSome_iff_exists.mp this with ⟨s', hs'⟩
        simp [hs']

/-- C1: a user can read a task iff it is an inbox task they own, or it
has a project on which the user's resolved permission is not `none`
(owner or share holder). -/
theorem canReadTask_iff_owner_or_resolved (db : DB) (u : Nat) (t : Task) :
    canReadTask db.projects db.shares u t = true ↔
      (t.project_id = none ∧ t.owner_id = u) ∨
      (∃ p ∈ db.projects, t.project_id = some p.id ∧
        resolve db.shares u p ≠ none) := by
  unfold canReadTask taskPolicyViewInbox taskPolicyViewAccessible
  cases hproj : t.project_id with
  | none =>
      simp [hproj, and_comm]
  | some pid =>
      simp only [hproj, Option.isNone_some, Bool.and_false, Bool.false_or,
        List.any_eq_true, Bool.and_eq_true, Bool.or_eq_true, beq_iff_eq]
      constructor
      · rintro ⟨p, hmem, hid, hacc⟩
        refine Or.inr ⟨p, hmem, by rw [hid], ?_⟩
        rw [resolve_ne_none_iff]
        rcases hacc with howner | hshare
        · exact Or.inl howner
        · exact Or.inr hshare
      · rintro (⟨hnone, _⟩ | ⟨p, hmem, hid, hres⟩)
        · exact (Option.some_ne_none pid hnone).elim
        · have hid' : p.id = pid := (Option.some_inj.mp hid).symm
          rw [resolve_ne_none_iff] at hres
          exact ⟨p, hmem, hid', by tauto⟩

/-- Reading an id whose rows are all invisible to the caller yields the
same `PGRST116` error as reading an id with no rows at all. -/
theorem readTask_hidden_eq_error (db : DB) (u i : Nat)
    (hhidden : ∀ t ∈ db.tasks, t.id = i →
      canReadTask db.projects db.shares u t = false) :
    readTask db u i = Except.error "PGRST116" := by
  unfold readTask
  have hnil : ((db.tasks.filter
      (fun t => canReadTask db.projects db.shares u t)).filter
        (fun t => t.id == i)) = [] := by
    rw [List.filter_eq_nil_iff]
    intro t hmem
    have hvis := List.of_mem_filter hmem
    have htasks := List.mem_of_mem_filter hmem
    intro hbeq
    have hid : t.id = i := by simpa using hbeq
    rw [hhidden t htasks hid] at hvis
    exact Bool.false_ne_true hvis
  rw [hnil]
  rfl

/-- C2: when the task with id `i` exists but is hidden from `u`, the
read of `i` returns the very same result as the read of an id `j` for
which no task exists: the caller cannot distinguish the two runs. -/
theorem readTask_hidden_indistinguishable (db : DB) (u i j : Nat)
    (hex : ∃ t ∈ db.tasks, t.id = i)
    (hhidden : ∀ t ∈ db.tasks, t.id = i →
      canReadTask db.projects db.shares u t = false)
    (habsent : ∀ t ∈ db.tasks, t.id ≠ j) :
    readTask db u i = readTask db u j := by
  rw [readTask_hidden_eq_error db u i hhidden,
    readTask_hidden_eq_error db u j (fun t hmem hid => absurd hid (habsent t hmem))]

/-- Witness for C2 at a concrete database. -/
theorem readTask_hidden_indistinguishable_witness :
    readTask dbC2 2 10 = readTask dbC2 2 99 :=
  readTask_hidden_indistinguishable dbC2 2 10 99
    (by decide) (by decide) (by decide)

/-- Pointwise equal predicates give equal `List.any` results. -/
theorem list_any_congr {α : Type} {l : List α} {p q : α → Bool}
    (h : ∀ x ∈ l, p x = q x) : l.any p = l.any q := by
  induction l with
  | nil => rfl
  | cons a l ih =>
      simp only [List.any_cons]
      rw [h a (List.mem_cons_self a l),
        ih (fun x hx => h x (List.mem_cons_of_mem a hx))]

/-- A new share on a different project does not change `shareExists`. -/
theorem shareExists_cons_ne (s : Share) (shares : List Share) (pid uid : Nat)
    (h : s.project_id ≠ pid) :
    shareExists (s :: shares) pid uid = shareExists shares pid uid := by
  simp [shareExists, List.any_cons, beq_eq_false_iff_ne.mpr h]

/-- A new share on a different project does not change `shareExistsEdit`. -/
theorem shareExistsEdit_cons_ne (s : Share) (shares : List Share) (pid uid : Nat)
    (h : s.project_id ≠ pid) :
    shareExistsEdit (s :: shares) pid uid = shareExistsEdit shares pid uid := by
  simp [shareExistsEdit, List.any_cons, beq_eq_false_iff_ne.mpr h]

/-- C5: granting user B a share (e.g. `edit`) on parent project P changes
nothing about B's ability to read or write a task or a section that lives
in P's child project C: the policies consult only C's own shares and
owner. -/
theorem share_on_parent_irrelevant_for_child (db : DB) (s : Share) (B : Nat)
    (P C : Project) (t : Task) (sec : Section)
    (hchild : C.parent_id = some P.id) (hne : C.id ≠ P.id)
    (hsproj : s.project_id = P.id) (hsuser : s.shared_with_user_id = B)
    (hsperm : s.permission = .edit)
    (ht : t.project_id = some C.id) (hsec : sec.project_id = C.id) :
    canReadTask db.projects (s :: db.shares) B t
        = canReadTask db.projects db.shares B t ∧
    canWriteTask db.projects (s :: db.shares) B t
        = canWriteTask db.projects db.shares B t ∧
    canReadSection db.projects (s :: db.shares) B sec
        = canReadSection db.projects db.shares B sec ∧
    canWriteSection db.projects (s :: db.shares) B sec
        = canWriteSection db.projects db.shares B sec := by
  have hsne : s.project_id ≠ C.id := by
    rw [hsproj]
    exact fun hc => hne hc.symm
  have hpoint : ∀ p : Project, (p.id == C.id) = true →
      shareExists (s :: db.shares) p.id B = shareExists db.shares p.id B ∧
      shareExistsEdit (s :: db.shares) p.id B
        = shareExistsEdit db.shares p.id B := by
    intro p hp
    have hpid : p.id = C.id := beq_iff_eq.mp hp
    constructor
    · exact shareExists_cons_ne s db.shares p.id B (hpid ▸ hsne)
    · exact shareExistsEdit_cons_ne s db.shares p.id B (hpid ▸ hsne)
  refine ⟨?_, ?_, ?_, ?_⟩
  · unfold canReadTask taskPolicyViewAccessible
    rw [ht]
    apply congrArg
    apply list_any_congr
    intro p _
    cases hp : (p.id == C.id) with
    | false => simp
    | true => rw [(hpoint p hp).1]
  · unfold canWriteTask taskPolicyModifyOwn taskPolicyModifyEditable
    rw [ht]
    dsimp only
    have h1 : db.projects.any (fun p => p.id == C.id
          && (p.owner_id == B || shareExists (s :: db.shares) p.id B))
        = db.projects.any (fun p => p.id == C.id
          && (p.owner_id == B || shareExists db.shares p.id B)) := by
      apply list_any_congr
      intro p _
      cases hp : (p.id == C.id) with
      | false => simp
      | true => rw [(hpoint p hp).1]
    have h2 : db.projects.any (fun p => p.id == C.id
          && shareExistsEdit (s :: db.shares) p.id B)
        = db.projects.any (fun p => p.id == C.id
          && shareExistsEdit db.shares p.id B) := by
      apply list_any_congr
      intro p _
      cases hp : (p.id == C.id) with
      | false => simp
      | true => rw [(hpoint p hp).2]
    rw [h1, h2]
  · unfold canReadSection
    rw [hsec]
    apply list_any_congr
    intro p _
    cases hp : (p.id == C.id) with
    | false => simp
    | true => rw [(hpoint p hp).1]
  · unfold canWriteSection
    rw [hsec]
    apply list_any_congr
    intro p _
    cases hp : (p.id == C.id) with
    | false => simp
    | true => rw [(hpoint p hp).2]

/-- Witness for C5 at a concrete database. -/
theorem share_on_parent_irrelevant_for_child_witness :
    canReadTask dbC5.projects (shareC5 :: dbC5.shares) 3 taskC5
        = canReadTask dbC5.projects dbC5.shares 3 taskC5 ∧
    canWriteTask dbC5.projects (shareC5 :: dbC5.shares) 3 taskC5
        = canWriteTask dbC5.projects dbC5.shares 3 taskC5 ∧
    canReadSection dbC5.projects (shareC5 :: dbC5.shares) 3 secC5
        = canReadSection dbC5.projects dbC5.shares 3 secC5 ∧
    canWriteSection dbC5.projects (shareC5 :: dbC5.shares) 3 secC5
        = canWriteSection dbC5.projects dbC5.shares 3 secC5 :=
  share_on_parent_irrelevant_for_child dbC5 shareC5 3 projC5P projC5C
    taskC5 secC5 (by decide) (by decide) (by decide) (by decide)
    (by decide) (by decide) (by decide)

/-- C3 failing input: completing the recurring task only marks it done;
the database afterwards still has exactly the one row — no successor
task due the following Thursday is created. -/
theorem completeTask_no_recurrence_expansion :
    (completeTask dbC3 1 "2025-01-06T12:00:00Z").tasks
      = [{ taskC3 with
           status := .done,
           completed_at := some "2025-01-06T12:00:00Z" }] := by
  decide

/-- C4 failing input: setting A's `blocked_by` to B while B is already
blocked by A is applied unchecked — the update succeeds and the database
now holds the two-task cycle 1 → 2 → 1; no `CycleError` exists in the
code. -/
theorem updateTask_cycle_not_rejected :
    (updateTask dbC4 1 updC4).tasks
      = [{ taskC4A with blocked_by := some 2 }, taskC4B] := by
  decide

/-- C8 counterexample: completing a cancelled task is not rejected and
does not leave the task unchanged — the row becomes `done` with a
completion timestamp. -/
theorem completeTask_cancelled_not_rejected :
    (completeTask dbC8 1 "2025-01-01T00:00:00Z").tasks ≠ dbC8.tasks ∧
    (completeTask dbC8 1 "2025-01-01T00:00:00Z").tasks
      = [{ taskC8 with
           status := .done,
           completed_at := some "2025-01-01T00:00:00Z" }] := by
  constructor
  · decide
  · decide

/-- C8 amended: completing any existing task — whatever its current
status, including `cancelled` — unconditionally sets it to `done` with
the given completion timestamp; no `ConflictError` is raised. -/
theorem completeTask_unconditional (db : DB) (i : Nat) (now : String)
    (t : Task) (ht : t ∈ db.tasks) (hid : t.id = i) :
    ∃ t' ∈ (completeTask db i now).tasks,
      t'.id = i ∧ t'.status = .done ∧ t'.completed_at = some now := by
  refine ⟨{ t with status := .done, completed_at := some now }, ?_, hid, rfl, rfl⟩
  have hf : (fun t : Task => if t.id == i
        then { t with status := TaskStatus.done, completed_at := some now }
        else t) t
      = { t with status := .done, completed_at := some now } := by
    simp [hid]
  exact hf ▸ List.mem_map_of_mem _ ht

/-- Witness for the amended C8 at the cancelled task. -/
theorem completeTask_unconditional_witness :
    ∃ t' ∈ (completeTask dbC8 1 "2025-01-01T00:00:00Z").tasks,
      t'.id = 1 ∧ t'.status = .done ∧
      t'.completed_at = some "2025-01-01T00:00:00Z" :=
  completeTask_unconditional dbC8 1 "2025-01-01T00:00:00Z" taskC8
    (by decide) (by decide)

/-- C9 counterexample: a generic field update that sets `status` to
`done` without touching `completed_at` yields a row whose status and
completion timestamp disagree. -/
theorem updateTask_breaks_status_timestamp :
    ∃ t ∈ (updateTask dbC9 1 updC9).tasks,
      t.status = .done ∧ t.completed_at = none := by
  decide

/-- C9 amended: the two dedicated completion mutations preserve the
status/timestamp correspondence — completing sets `done` together with a
timestamp, reverting sets `open` and clears it — but the generic update
path does not (see the counterexample). -/
theorem complete_uncomplete_preserve_consistency (db : DB) (i : Nat)
    (now : String) (h : ∀ t ∈ db.tasks, statusTimestampConsistent t) :
    (∀ t ∈ (completeTask db i now).tasks, statusTimestampConsistent t) ∧
    (∀ t ∈ (uncompleteTask db i).tasks, statusTimestampConsistent t) := by
  constructor
  · intro t ht
    rcases List.mem_map.mp ht with ⟨t0, ht0, rfl⟩
    by_cases hc : (t0.id == i) = true
    · simp [hc, statusTimestampConsistent]
    · rw [Bool.not_eq_true] at hc
      simpa [hc] using h t0 ht0
  · intro t ht
    rcases List.mem_map.mp ht with ⟨t0, ht0, rfl⟩
    by_cases hc : (t0.id == i) = true
    · simp [hc, statusTimestampConsistent]
    · rw [Bool.not_eq_true] at hc
      simpa [hc] using h t0 ht0

/-- Witness for the amended C9 at a concrete consistent database. -/
theorem complete_uncomplete_preserve_consistency_witness :
    (∀ t ∈ (completeTask dbC9 1 "2025-01-02T00:00:00Z").tasks,
      statusTimestampConsistent t) ∧
    (∀ t ∈ (uncompleteTask dbC9 1).tasks, statusTimestampConsistent t) :=
  complete_uncomplete_preserve_consistency dbC9 1 "2025-01-02T00:00:00Z"
    (by decide)

/-- The deletion target is always in its own cascade set. -/
theorem projectDead_self (db : DB) (target : Nat) :
    projectDead db target target = true := by
  unfold projectDead
  cases db.projects.length with
  | zero => simp [inProjectCascade]
  | succ n => simp [inProjectCascade]

/-- C6: deleting project `target` keeps every task row (none deleted),
removes every project and section of the cascade set — the target and
its subprojects, transitively, with their sections — and each task that
referenced a cascaded project survives with its project reference
cleared and its other fields intact. -/
theorem deleteProject_cascades (db : DB) (target : Nat) (t : Task) (q : Nat)
    (ht : t ∈ db.tasks) (hq : t.project_id = some q)
    (hdead : projectDead db target q = true) :
    (deleteProject db target).tasks.length = db.tasks.length ∧
    (∀ p ∈ (deleteProject db target).projects,
      projectDead db target p.id = false ∧ p.id ≠ target) ∧
    (∀ s ∈ (deleteProject db target).sections,
      projectDead db target s.project_id = false) ∧
    ∃ t' ∈ (deleteProject db target).tasks,
      t'.id = t.id ∧ t'.project_id = none ∧ t'.title = t.title ∧
      t'.status = t.status ∧ t'.owner_id = t.owner_id ∧
      t'.description = t.description ∧ t'.priority = t.priority ∧
      t'.due_date = t.due_date ∧ t'.completed_at = t.completed_at := by
  refine ⟨List.length_map _ _, ?_, ?_, ?_⟩
  · intro p hp
    have hkeep := List.of_mem_filter hp
    have hfalse : projectDead db target p.id = false := by
      simpa using hkeep
    refine ⟨hfalse, ?_⟩
    intro hcontra
    rw [hcontra, projectDead_self] at hfalse
    exact Bool.noConfusion hfalse
  · intro s hs
    have hkeep := List.of_mem_filter hs
    simpa using hkeep
  · refine ⟨clearTaskProjectRefs db target t, List.mem_map_of_mem _ ht,
      rfl, ?_, rfl, rfl, rfl, rfl, rfl, rfl, rfl⟩
    unfold clearTaskProjectRefs
    rw [hq]
    simp [hdead]

/-- Witness for C6 at a concrete database. -/
theorem deleteProject_cascades_witness :
    (deleteProject dbC6 1).tasks.length = dbC6.tasks.length ∧
    (∀ p ∈ (deleteProject dbC6 1).projects,
      projectDead dbC6 1 p.id = false ∧ p.id ≠ 1) ∧
    (∀ s ∈ (deleteProject dbC6 1).sections,
      projectDead dbC6 1 s.project_id = false) ∧
    ∃ t' ∈ (deleteProject dbC6 1).tasks,
      t'.id = taskC6.id ∧ t'.project_id = none ∧ t'.title = taskC6.title ∧
      t'.status = taskC6.status ∧ t'.owner_id = taskC6.owner_id ∧
      t'.description = taskC6.description ∧ t'.priority = taskC6.priority ∧
      t'.due_date = taskC6.due_date ∧ t'.completed_at = taskC6.completed_at :=
  deleteProject_cascades dbC6 1 taskC6 2 (by decide) (by decide) (by decide)

/-- The deleted task is always in its own cascade set. -/
theorem taskDead_self (db : DB) (target : Nat) :
    taskDead db target target = true := by
  unfold taskDead
  cases db.tasks.length with
  | zero => simp [inTaskCascade]
  | succ n => simp [inTaskCascade]

/-- C7 counterexample: when Y is blocked by X and also a subtask of X,
deleting X cascade-deletes Y instead of keeping it with `blocked_by`
cleared — the table is left empty. -/
theorem deleteTask_cascades_subtask_dependent :
    taskC7Y.blocked_by = some taskC7X.id ∧
    (deleteTask dbC7 1).tasks = [] := by
  constructor
  · decide
  · decide

/-- C7 amended: for a dependent task that is not in X's subtask subtree,
deleting X clears its predecessor reference and changes nothing else;
dependents inside the subtree are cascade-deleted with X. -/
theorem deleteTask_clears_blocked_by (db : DB) (target : Nat) (y : Task)
    (hy : y ∈ db.tasks) (hb : y.blocked_by = some target)
    (hsurv : taskDead db target y.id = false) :
    ∃ t' ∈ (deleteTask db target).tasks,
      t'.id = y.id ∧ t'.blocked_by = none ∧ t'.title = y.title ∧
      t'.status = y.status ∧ t'.project_id = y.project_id ∧
      t'.section_id = y.section_id ∧ t'.parent_task_id = y.parent_task_id ∧
      t'.due_date = y.due_date ∧ t'.priority = y.priority ∧
      t'.completed_at = y.completed_at ∧ t'.owner_id = y.owner_id := by
  have hmemf : y ∈ db.tasks.filter fun t => !taskDead db target t.id :=
    List.mem_filter.mpr ⟨hy, by simp [hsurv]⟩
  refine ⟨clearDeadBlockedBy db target y, List.mem_map_of_mem _ hmemf,
    rfl, ?_, rfl, rfl, rfl, rfl, rfl, rfl, rfl, rfl, rfl⟩
  unfold clearDeadBlockedBy
  rw [hb]
  simp [taskDead_self]

/-- Witness for the amended C7 at a concrete database. -/
theorem deleteTask_clears_blocked_by_witness :
    ∃ t' ∈ (deleteTask dbC7W 1).tasks,
      t'.id = taskC7Z.id ∧ t'.blocked_by = none ∧ t'.title = taskC7Z.title ∧
      t'.status = taskC7Z.status ∧ t'.project_id = taskC7Z.project_id ∧
      t'.section_id = taskC7Z.section_id ∧
      t'.parent_task_id = taskC7Z.parent_task_id ∧
      t'.due_date = taskC7Z.due_date ∧ t'.priority = taskC7Z.priority ∧
      t'.completed_at = taskC7Z.completed_at ∧
      t'.owner_id = taskC7Z.owner_id :=
  deleteTask_clears_blocked_by dbC7W 1 taskC7Z (by decide) (by decide)
    (by decide)

/-- Invariant of the `useTasks` assembly loop: an orphan task (parent id
set but absent from the fetched set) never enters `topLevel` and never
becomes the child of an attachment edge. -/
theorem buildTree_orphan_aux (ts : List Task) (t : Task) (p : Nat)
    (hp : t.parent_task_id = some p)
    (horph : ∀ q ∈ ts, q.id ≠ p)
    (huniq : ∀ q ∈ ts, q.id = t.id → q = t)
    (l : List Task) (hl : ∀ x ∈ l, x ∈ ts) (acc : TreeBuild)
    (hacc : t ∉ acc.topLevel ∧ ∀ e ∈ acc.edges, e.2 ≠ t.id) :
    t ∉ (l.foldl (buildStep ts) acc).topLevel ∧
    ∀ e ∈ (l.foldl (buildStep ts) acc).edges, e.2 ≠ t.id := by
  induction l generalizing acc with
  | nil => exact hacc
  | cons x l ih =>
      rw [List.foldl_cons]
      apply ih (fun z hz => hl z (List.mem_cons_of_mem x hz))
      have hxts : x ∈ ts := hl x (List.mem_cons_self x l)
      unfold buildStep
      cases hxp : x.parent_task_id with
      | none =>
          constructor
          · simp only [List.mem_append, List.mem_singleton]
            rintro (hin | rfl)
            · exact hacc.1 hin
            · rw [hxp] at hp
              exact Option.noConfusion hp
          · exact hacc.2
      | some pid =>
          by_cases hfound : ts.any (fun q => q.id == pid) = true
          · simp only [hfound, if_true]
            refine ⟨hacc.1, ?_⟩
            intro e he
            rcases List.mem_append.mp he with hold | hnew
            · exact hacc.2 e hold
            · rcases List.mem_singleton.mp hnew with rfl
              intro hxid
              have hxt : x = t := huniq x hxts hxid
              rw [hxt, hp] at hxp
              have hpidp : pid = p := (Option.some_inj.mp hxp).symm
              rcases List.any_eq_true.mp hfound with ⟨q, hq, hqid⟩
              exact horph q hq (by simpa [hpidp] using hqid)
          · simp only [Bool.not_eq_true] at hfound
            simp only [hfound, if_false]
            exact hacc

/-- C10: a fetched task whose `parent_task_id` points outside the
fetched set appears nowhere in the `useTasks` result: it is attached to
no parent and is not returned as a top-level task. -/
theorem useTasks_orphan_invisible (ts : List Task) (t : Task) (p : Nat)
    (ht : t ∈ ts) (hp : t.parent_task_id = some p)
    (horph : ∀ q ∈ ts, q.id ≠ p)
    (huniq : ∀ q ∈ ts, q.id = t.id → q = t) :
    t ∉ (buildTaskTree ts).topLevel ∧
    ∀ e ∈ (buildTaskTree ts).edges, e.2 ≠ t.id := by
  unfold buildTaskTree
  exact buildTree_orphan_aux ts t p hp horph huniq ts (fun x hx => hx)
    { topLevel := [], edges := [] }
    ⟨List.not_mem_nil t, fun e he => absurd he (List.not_mem_nil e)⟩

/-- Witness for C10 at a concrete fetched list. -/
theorem useTasks_orphan_invisible_witness :
    taskC10 ∉ (buildTaskTree [taskC10Top, taskC10]).topLevel ∧
    ∀ e ∈ (buildTaskTree [taskC10Top, taskC10]).edges, e.2 ≠ taskC10.id :=
  useTasks_orphan_invisible [taskC10Top, taskC10] taskC10 5
    (by decide) (by decide) (by decide) (by decide)

end Todopus
